import Mathlib

/-!
# echocbor: CBOR responses and request binding for echo

A shallow embedding of `echocbor.go`.

The package is an adapter between two libraries, so its three functions are
embedded over the library operations they call, collected in `Lib`:
echo's default binder and `Blob`, the codec's `Marshal` and streaming `Decode`,
and the `Error()` method of error values.  Each function returns, besides its
Go result, the state it leaves behind and the list of library calls it made,
in order.
-/

namespace echocbor

/-! ## Data -/

/-- A byte slice or byte stream, one entry per octet. -/
abbrev Bytes := List Nat

/-- The constant `mimeType` of the package. -/
def mimeType : String := "application/cbor"

/-- The header name `echo.HeaderContentType`. -/
def HeaderContentType : String := "Content-Type"

/-- The status `http.StatusBadRequest`. -/
def StatusBadRequest : Int := 400

/-- The status `http.StatusUnsupportedMediaType`. -/
def StatusUnsupportedMediaType : Int := 415

/-- Values of Go's `error` interface as this package sees them.  Go compares
interface values holding pointers by identity, so the package-level variable
`echo.ErrUnsupportedMediaType` is a value of its own, different from every
`*echo.HTTPError` allocated later (whatever its code), and from every error of
another library (`foreign`). -/
inductive Error (ε : Type) where
  | nil : Error ε
  | ErrUnsupportedMediaType : Error ε
  | HTTPError (Code : Int) (Message : String) (Internal : Error ε) : Error ε
  | foreign (e : ε) : Error ε
  deriving DecidableEq, Repr

/-- The `Code` field of an error that is an `*echo.HTTPError`. -/
def Error.Code {ε : Type} : Error ε → Option Int
  | .ErrUnsupportedMediaType => some StatusUnsupportedMediaType
  | .HTTPError code _ _ => some code
  | _ => none

/-- The call `echo.NewHTTPError(code, message)`: a new error without internal error. -/
def NewHTTPError {ε : Type} (code : Int) (message : String) : Error ε :=
  .HTTPError code message .nil

/-- The method `(*echo.HTTPError).SetInternal`: stores the internal error and
returns the receiver. -/
def Error.SetInternal {ε : Type} : Error ε → Error ε → Error ε
  | .HTTPError code message _, err => .HTTPError code message err
  | he, _ => he

/-- What the binder and the default binder read of `c.Request()`: `Header.Get`,
the unread part of `Body`, and `ContentLength`. -/
structure Request where
  Header : String → String
  Body : Bytes
  ContentLength : Int

/-- A call to one of the libraries, with the arguments this package chose. -/
inductive Call where
  | DefaultBinderBind : Call
  | HeaderGet (key : String) : Call
  | Decode (body : Bytes) : Call
  | Marshal : Call
  | Blob (code : Int) (contentType : String) (b : Bytes) : Call
  deriving DecidableEq, Repr

/-- The library operations the package calls.  `ε` is the type of errors of
other libraries, `α` the type of payload values and binding targets, `κ` the
state of an `echo.Context`.

* `DefaultBinderBind i c` is `new(echo.DefaultBinder).Bind(i, c)`: its error,
  the target and the request as it leaves them;
* `Decode body i` is `cbor.NewDecoder(body).Decode(i)`: its error, the target
  as it leaves it, and the unread rest of the stream;
* `Marshal i` is `cbor.Marshal(i)`;
* `Blob c code contentType b` is `c.Blob(code, contentType, b)`: its error and
  the context as it leaves it;
* `ErrorString err` is `err.Error()`. -/
structure Lib (ε α κ : Type) where
  DefaultBinderBind : α → Request → Error ε × α × Request
  Decode : Bytes → α → Error ε × α × Bytes
  Marshal : α → Bytes × Error ε
  Blob : κ → Int → String → Bytes → Error ε × κ
  ErrorString : Error ε → String

/-! ## The response side -/

/-- The struct `context`, which embeds an `echo.Context`. -/
structure context (κ : Type) where
  Context : κ

/-- A method of the embedded `echo.Context`, promoted to `context`. -/
def context.promoted {κ β : Type} (method : κ → β) (c : context κ) : β :=
  method c.Context

/-- The outcome of `context.Cbor`. -/
structure CborResult (ε κ : Type) where
  err : Error ε
  ctx : context κ
  calls : List Call

/-- The method `context.Cbor`. -/
def context.Cbor {ε α κ : Type} [DecidableEq ε] (lib : Lib ε α κ)
    (c : context κ) (code : Int) (i : α) : CborResult ε κ :=
  -- encode as Cbor
  match lib.Marshal i with
  | (b, err) =>
    if err ≠ .nil then
      { err := err, ctx := c, calls := [.Marshal] }
    else
      match c.promoted (fun k => lib.Blob k code mimeType b) with
      | (werr, k) => { err := werr, ctx := ⟨k⟩, calls := [.Marshal, .Blob code mimeType b] }

/-! ## The request side -/

/-- The outcome of `Binder.Bind`: the error returned, the target and the
request as they are left, and the library calls made. -/
structure BindResult (ε α : Type) where
  err : Error ε
  i : α
  req : Request
  calls : List Call

/-- The method `Binder.Bind`. -/
def Binder.Bind {ε α κ : Type} [DecidableEq ε] (lib : Lib ε α κ)
    (i : α) (c : Request) : BindResult ε α :=
  match lib.DefaultBinderBind i c with
  | (err, i1, c1) =>
    if err ≠ .ErrUnsupportedMediaType then
      { err := err, i := i1, req := c1, calls := [.DefaultBinderBind] }
    -- check content type
    else if c1.Header HeaderContentType ≠ mimeType then
      { err := .ErrUnsupportedMediaType, i := i1, req := c1,
        calls := [.DefaultBinderBind, .HeaderGet HeaderContentType] }
    else
      -- decode Cbor body
      match lib.Decode c1.Body i1 with
      | (derr, i2, rest) =>
        if derr ≠ .nil then
          { err := (NewHTTPError StatusBadRequest (lib.ErrorString derr)).SetInternal derr,
            i := i2, req := { c1 with Body := rest },
            calls := [.DefaultBinderBind, .HeaderGet HeaderContentType, .Decode c1.Body] }
        else
          { err := .nil, i := i2, req := { c1 with Body := rest },
            calls := [.DefaultBinderBind, .HeaderGet HeaderContentType, .Decode c1.Body] }

/-! ## The middleware -/

/-- The type `echo.HandlerFunc` over contexts of type `γ`: a handler returns an
error and leaves the context in a new state. -/
abbrev HandlerFunc (ε γ : Type) := γ → Error ε × γ

/-- The outcome of the handler built by `ContextWrapper`: the error returned,
the underlying context as it is left, and the contexts `next` was called with. -/
structure WrapResult (ε κ : Type) where
  err : Error ε
  c : κ
  nextCalls : List (context κ)

/-- The function `ContextWrapper`. -/
def ContextWrapper {ε κ : Type} (next : HandlerFunc ε (context κ)) (c : κ) : WrapResult ε κ :=
  let ctx : context κ := { Context := c } -- Create a new context that embeds echo.Context
  match next ctx with -- Pass the wrapped context to the next handler
  | (err, ctx1) => { err := err, c := ctx1.Context, nextCalls := [ctx] }

/-- Whether a call is a response write. -/
def Call.isBlob : Call → Bool
  | .Blob _ _ _ => true
  | _ => false

/-- Whether a call runs the CBOR decoder. -/
def Call.isDecode : Call → Bool
  | .Decode _ => true
  | _ => false

/-- Whether a call reads a request header. -/
def Call.isHeaderGet : Call → Bool
  | .HeaderGet _ => true
  | _ => false

/-- The responses a recording writer has been given: status, content type and
body of each, in order. -/
abbrev Recorder := List (Int × String × Bytes)

/-- A response writer that only records what it is given, and never fails. -/
def recordingBlob {ε : Type} (rec : Recorder) (code : Int) (contentType : String)
    (b : Bytes) : Error ε × Recorder :=
  (.nil, rec ++ [(code, contentType, b)])

/-- The libraries with the response writer replaced by the recording one. -/
def Lib.recording {ε α κ : Type} (lib : Lib ε α κ) : Lib ε α Recorder where
  DefaultBinderBind := lib.DefaultBinderBind
  Decode := lib.Decode
  Marshal := lib.Marshal
  Blob := recordingBlob
  ErrorString := lib.ErrorString

/-! ## An instance of the libraries

The theorems below are stated for every `Lib`.  This instance is used to run
the definitions on the requests and values of the package's tests.  It covers:

* Go values of three types: the struct `Sample` of the tests, a struct with an
  unexported field, and a channel;
* the CBOR encoding of such structs (a map from field names to integers and
  text strings) and its decoding into them;
* echo's default binder on a `POST` to a route without parameters, with its
  JSON branch (objects of integers and plain strings);
* a response writer that records what it is given.

Data outside this range (nested or indefinite-length CBOR items, floats, JSON
escapes, XML and form bodies) is refused by the instance. -/

/-- The struct `Sample` of the tests, with fields tagged `name` and `value`. -/
structure Sample where
  Name : String
  Value : Int
  deriving DecidableEq, Repr

/-- The Go values of the instance: a `Sample`; a struct
`struct{ Name string; secret int }`, whose second field is unexported; and a
`chan int`. -/
inductive GoValue where
  | sample (s : Sample) : GoValue
  | account (Name : String) (secret : Int) : GoValue
  | chanInt : GoValue
  deriving DecidableEq, Repr

/-- A field value on the wire: an integer or a text string. -/
inductive Item where
  | int (n : Int) : Item
  | text (s : String) : Item
  deriving DecidableEq, Repr

/-- The fields of a struct that a codec sees, under their encoded names and in
declaration order: exported fields only; a channel has no encoding. -/
def GoValue.fields : GoValue → Option (List (String × Item))
  | .sample s => some [("name", .text s.Name), ("value", .int s.Value)]
  | .account name _ => some [("Name", .text name)]
  | .chanInt => none

/-- Whether a value is a struct. -/
def GoValue.isStruct : GoValue → Bool
  | .chanInt => false
  | _ => true

/-- A string in lower case, for matching keys to field names without regard to
case. -/
def lower (s : String) : String :=
  String.mk (s.toList.map Char.toLower)

/-- Whether an integer fits Go's 64-bit `int`. -/
def fitsInt (n : Int) : Bool :=
  decide (-(2 ^ 63) ≤ n ∧ n < 2 ^ 63)

/-- Stores an item in the field of a struct that a key names: `none` when the
item has the wrong type for the field or does not fit it; a key that names no
exported field leaves the struct as it is. -/
def GoValue.setField (key : String) (item : Item) : GoValue → Option GoValue
  | .sample s =>
    if lower key = "name" then
      match item with
      | .text t => some (.sample { s with Name := t })
      | .int _ => none
    else if lower key = "value" then
      match item with
      | .int n => if fitsInt n = true then some (.sample { s with Value := n }) else none
      | .text _ => none
    else some (.sample s)
  | .account name secret =>
    if lower key = "name" then
      match item with
      | .text t => some (.account t secret)
      | .int _ => none
    else some (.account name secret)
  | .chanInt => some .chanInt

/-- Stores decoded pairs in a struct one after the other; a pair of the wrong
type is left out and reported (`false`), the others are stored all the same. -/
def bindPairs : List (String × Item) → GoValue → GoValue × Bool
  | [], target => (target, true)
  | (key, item) :: pairs, target =>
    match target.setField key item with
    | some target1 => bindPairs pairs target1
    | none => ((bindPairs pairs target).1, false)

/-! ### UTF-8 -/

/-- The UTF-8 bytes of a character. -/
def utf8EncodeChar (ch : Char) : Bytes :=
  let n := ch.toNat
  if n < 0x80 then [n]
  else if n < 0x800 then [0xC0 + n / 64, 0x80 + n % 64]
  else if n < 0x10000 then [0xE0 + n / 4096, 0x80 + n / 64 % 64, 0x80 + n % 64]
  else [0xF0 + n / 262144, 0x80 + n / 4096 % 64, 0x80 + n / 64 % 64, 0x80 + n % 64]

/-- The UTF-8 bytes of a list of characters. -/
def utf8EncodeChars : List Char → Bytes
  | [] => []
  | ch :: chars => utf8EncodeChar ch ++ utf8EncodeChars chars

/-- The UTF-8 bytes of a string. -/
def utf8Encode (s : String) : Bytes :=
  utf8EncodeChars s.toList

/-- Reads UTF-8 byte by byte: `pending` continuation bytes are still due for
the code point begun in `acc`, which must reach `least` (no overlong form);
`out` holds the characters read, last first. -/
def utf8DecodeFrom : Bytes → Nat → Nat → Nat → List Char → Option String
  | [], pending, _, _, out => if pending = 0 then some (String.mk out.reverse) else none
  | b :: bs, 0, _, _, out =>
    if b < 0x80 then utf8DecodeFrom bs 0 0 0 (Char.ofNat b :: out)
    else if 0xC2 ≤ b ∧ b < 0xE0 then utf8DecodeFrom bs 1 (b - 0xC0) 0x80 out
    else if 0xE0 ≤ b ∧ b < 0xF0 then utf8DecodeFrom bs 2 (b - 0xE0) 0x800 out
    else if 0xF0 ≤ b ∧ b < 0xF5 then utf8DecodeFrom bs 3 (b - 0xF0) 0x10000 out
    else none
  | b :: bs, pending + 1, acc, least, out =>
    if 0x80 ≤ b ∧ b < 0xC0 then
      if pending = 0 then
        if least ≤ acc * 64 + (b - 0x80) ∧ acc * 64 + (b - 0x80) < 0x110000
            ∧ ¬ (0xD800 ≤ acc * 64 + (b - 0x80) ∧ acc * 64 + (b - 0x80) < 0xE000) then
          utf8DecodeFrom bs 0 0 0 (Char.ofNat (acc * 64 + (b - 0x80)) :: out)
        else none
      else utf8DecodeFrom bs pending (acc * 64 + (b - 0x80)) least out
    else none

/-- The string of some UTF-8 bytes, `none` when they are not valid UTF-8. -/
def utf8Decode (bs : Bytes) : Option String :=
  utf8DecodeFrom bs 0 0 0 []

/-! ### The codec -/

/-- The `width` low bytes of a number, most significant first. -/
def bigEndian : Nat → Nat → Bytes
  | 0, _ => []
  | width + 1, n => (n / 256 ^ width % 256) :: bigEndian width n

/-- The number that bytes spell, most significant first. -/
def fromBigEndian (bs : Bytes) : Nat :=
  bs.foldl (fun acc b => acc * 256 + b) 0

/-- The head of a CBOR item: major type and argument, in the shortest form. -/
def encodeHead (major n : Nat) : Bytes :=
  if n < 24 then [major * 32 + n]
  else if n < 2 ^ 8 then (major * 32 + 24) :: bigEndian 1 n
  else if n < 2 ^ 16 then (major * 32 + 25) :: bigEndian 2 n
  else if n < 2 ^ 32 then (major * 32 + 26) :: bigEndian 4 n
  else (major * 32 + 27) :: bigEndian 8 n

/-- The CBOR encoding of an item: major type 0 or 1 for an integer, 3 for a
text string. -/
def encodeItem : Item → Bytes
  | .int n => if 0 ≤ n then encodeHead 0 n.toNat else encodeHead 1 (-1 - n).toNat
  | .text s => encodeHead 3 (utf8Encode s).length ++ utf8Encode s

/-- The CBOR encoding of the entries of a map. -/
def encodeFields : List (String × Item) → Bytes
  | [] => []
  | (key, item) :: fs => encodeItem (.text key) ++ encodeItem item ++ encodeFields fs

/-- The codec's `Marshal`: a struct becomes the map of its exported fields, a
channel is an unsupported type. -/
def cborMarshal (v : GoValue) : Bytes × Error String :=
  match v.fields with
  | some fs => (encodeHead 5 fs.length ++ encodeFields fs, .nil)
  | none => ([], .foreign "cbor: unsupported type: chan int")

/-- Reads the head of a CBOR item: major type, argument and the bytes after. -/
def decodeHead : Bytes → Except String (Nat × Nat × Bytes)
  | [] => .error "unexpected EOF"
  | h :: rest =>
    if h % 32 < 24 then .ok (h / 32, h % 32, rest)
    else if h % 32 < 28 then
      if rest.length < 2 ^ (h % 32 - 24) then .error "unexpected EOF"
      else .ok (h / 32, fromBigEndian (rest.take (2 ^ (h % 32 - 24))),
        rest.drop (2 ^ (h % 32 - 24)))
    else if h = 0xFF then .error "cbor: unexpected \"break\" code"
    else .error "cbor: item outside the instance"

/-- Reads one integer or text string. -/
def decodeItem (bs : Bytes) : Except String (Item × Bytes) :=
  match decodeHead bs with
  | .error e => .error e
  | .ok (major, n, rest) =>
    if major = 0 then .ok (.int (Int.ofNat n), rest)
    else if major = 1 then .ok (.int (-1 - Int.ofNat n), rest)
    else if major = 3 then
      if rest.length < n then .error "unexpected EOF"
      else
        match utf8Decode (rest.take n) with
        | some s => .ok (.text s, rest.drop n)
        | none => .error "cbor: invalid UTF-8 string"
    else .error "cbor: item outside the instance"

/-- Reads the given number of map entries; an entry whose key is an integer
names no field and is dropped. -/
def decodePairs : Nat → Bytes → Except String (List (String × Item))
  | 0, _ => .ok []
  | count + 1, bs =>
    match decodeItem bs with
    | .error e => .error e
    | .ok (key, bs1) =>
      match decodeItem bs1 with
      | .error e => .error e
      | .ok (item, bs2) =>
        match decodePairs count bs2 with
        | .error e => .error e
        | .ok pairs =>
          match key with
          | .text k => .ok ((k, item) :: pairs)
          | .int _ => .ok pairs

/-- The codec's streaming `Decode`.  The decoder reads the stream ahead, to its
end for a short body.  An empty stream is the end of input; a stream that is
not one whole item is refused before the target is touched; a map is stored
field by field into a struct. -/
def cborDecode (body : Bytes) (i : GoValue) : Error String × GoValue × Bytes :=
  match body with
  | [] => (.foreign "EOF", i, [])
  | _ :: _ =>
    match decodeHead body with
    | .error e => (.foreign e, i, [])
    | .ok (major, n, rest) =>
      if major = 5 then
        match decodePairs n rest with
        | .error e => (.foreign e, i, [])
        | .ok pairs =>
          if i.isStruct = true then
            match bindPairs pairs i with
            | (i1, true) => (.nil, i1, [])
            | (i1, false) => (.foreign "cbor: cannot unmarshal into field", i1, [])
          else (.foreign "cbor: cannot unmarshal map into Go value of type chan int", i, [])
      else
        match decodeItem body with
        | .error e => (.foreign e, i, [])
        | .ok _ => (.foreign "cbor: cannot unmarshal into Go value", i, [])

/-! ### The default binder -/

/-- A piece of JSON text. -/
inductive Token where
  | lbrace : Token
  | rbrace : Token
  | colon : Token
  | comma : Token
  | str (s : Bytes) : Token
  | num (n : Int) : Token
  | bad : Token
  | unterminated : Token
  deriving DecidableEq, Repr

/-- Where the reader of JSON text stands: between tokens, inside a string, or
inside a number (after its sign, with the digits read so far). -/
inductive Lex where
  | idle : Lex
  | inStr (acc : Bytes) : Lex
  | inNum (neg : Bool) (digits : Option Nat) : Lex

/-- The token of a number that has ended. -/
def numToken (neg : Bool) : Option Nat → Token
  | none => .bad
  | some n => .num (if neg = true then - Int.ofNat n else Int.ofNat n)

/-- One byte read between tokens. -/
def lexIdle (b : Nat) : Lex × List Token :=
  if b = 0x20 ∨ b = 0x09 ∨ b = 0x0A ∨ b = 0x0D then (.idle, [])
  else if b = 0x7B then (.idle, [.lbrace])
  else if b = 0x7D then (.idle, [.rbrace])
  else if b = 0x3A then (.idle, [.colon])
  else if b = 0x2C then (.idle, [.comma])
  else if b = 0x22 then (.inStr [], [])
  else if b = 0x2D then (.inNum true none, [])
  else if 0x30 ≤ b ∧ b ≤ 0x39 then (.inNum false (some (b - 0x30)), [])
  else (.idle, [.bad])

/-- The tokens of JSON text. -/
def lex : Lex → Bytes → List Token
  | .idle, [] => []
  | .inStr _, [] => [.unterminated]
  | .inNum neg digits, [] => [numToken neg digits]
  | .idle, b :: bs => (lexIdle b).2 ++ lex (lexIdle b).1 bs
  | .inStr acc, b :: bs =>
    if b = 0x22 then .str acc :: lex .idle bs
    else if b = 0x5C then .bad :: lex .idle bs
    else lex (.inStr (acc ++ [b])) bs
  | .inNum neg digits, b :: bs =>
    if 0x30 ≤ b ∧ b ≤ 0x39 then lex (.inNum neg (some (digits.getD 0 * 10 + (b - 0x30)))) bs
    else numToken neg digits :: ((lexIdle b).2 ++ lex (lexIdle b).1 bs)

/-- What the reader of a JSON object expects next. -/
inductive Expect where
  | keyOrClose : Expect
  | key : Expect
  | colon (k : String) : Expect
  | value (k : String) : Expect
  | commaOrClose : Expect

/-- Reads the members of a JSON object after its opening brace; what follows
the closing brace is left unread. -/
def parseObject : Expect → List Token → List (String × Item) →
    Except String (List (String × Item))
  | _, [], _ => .error "unexpected EOF"
  | _, .unterminated :: _, _ => .error "unexpected EOF"
  | .keyOrClose, .rbrace :: _, acc => .ok acc.reverse
  | .commaOrClose, .rbrace :: _, acc => .ok acc.reverse
  | .commaOrClose, .comma :: ts, acc => parseObject .key ts acc
  | .colon k, .colon :: ts, acc => parseObject (.value k) ts acc
  | .value k, .num n :: ts, acc => parseObject .commaOrClose ts ((k, .int n) :: acc)
  | .value k, .str s :: ts, acc =>
    match utf8Decode s with
    | some text => parseObject .commaOrClose ts ((k, .text text) :: acc)
    | none => .error "Syntax error"
  | .keyOrClose, .str s :: ts, acc =>
    match utf8Decode s with
    | some k => parseObject (.colon k) ts acc
    | none => .error "Syntax error"
  | .key, .str s :: ts, acc =>
    match utf8Decode s with
    | some k => parseObject (.colon k) ts acc
    | none => .error "Syntax error"
  | _, _ :: _, _ => .error "Syntax error"

/-- The JSON branch of the default binder: the body is read as one JSON object
and stored field by field; any failure is a bad request, a new `HTTPError`
with the failure inside. -/
def jsonDeserialize (body : Bytes) (i : GoValue) : Error String × GoValue :=
  match lex .idle body with
  | [] => (.HTTPError 400 "EOF" (.foreign "EOF"), i)
  | .lbrace :: ts =>
    match parseObject .keyOrClose ts [] with
    | .error e => (.HTTPError 400 e (.foreign e), i)
    | .ok pairs =>
      if i.isStruct = true then
        match bindPairs pairs i with
        | (i1, true) => (.nil, i1)
        | (i1, false) =>
          (.HTTPError 400 "Unmarshal type error" (.foreign "json: cannot unmarshal"), i1)
      else (.HTTPError 400 "Unmarshal type error" (.foreign "json: cannot unmarshal"), i)
  | .unterminated :: _ => (.HTTPError 400 "unexpected EOF" (.foreign "unexpected EOF"), i)
  | _ :: _ => (.HTTPError 400 "Syntax error" (.foreign "invalid character"), i)

/-- The media type of a Content-Type value: what stands before the first
semicolon, without the white space around it. -/
def mediaTypeOf (contentType : String) : String :=
  String.mk (((contentType.toList.takeWhile (fun ch => ch ≠ ';')).dropWhile
    Char.isWhitespace).reverse.dropWhile Char.isWhitespace).reverse

/-- The default binder of echo on a `POST` to a route without parameters: a
request of content length 0 binds nothing and succeeds; otherwise the media
type selects the decoder, and a media type echo does not know is
`echo.ErrUnsupportedMediaType`, the body left unread.  The XML and form
decoders are outside the instance. -/
def defaultBind (i : GoValue) (c : Request) : Error String × GoValue × Request :=
  if c.ContentLength = 0 then (.nil, i, c)
  else if mediaTypeOf (c.Header HeaderContentType) = "application/json" then
    ((jsonDeserialize c.Body i).1, (jsonDeserialize c.Body i).2, { c with Body := [] })
  else if mediaTypeOf (c.Header HeaderContentType) = "application/xml"
      ∨ mediaTypeOf (c.Header HeaderContentType) = "text/xml"
      ∨ mediaTypeOf (c.Header HeaderContentType) = "application/x-www-form-urlencoded"
      ∨ mediaTypeOf (c.Header HeaderContentType) = "multipart/form-data" then
    (.HTTPError 400 "outside the instance" .nil, i, c)
  else (.ErrUnsupportedMediaType, i, c)

/-- The text of an error: its own text for an error of another library, its
message for an `HTTPError`. -/
def errorText : Error String → String
  | .foreign e => e
  | .ErrUnsupportedMediaType => "Unsupported Media Type"
  | .HTTPError _ message _ => message
  | .nil => ""

/-- The instance of the libraries, with the recording writer. -/
def sampleLib : Lib String GoValue Recorder where
  DefaultBinderBind := defaultBind
  Decode := cborDecode
  Marshal := cborMarshal
  Blob := recordingBlob
  ErrorString := errorText

/-- A request as `httptest.NewRequest` builds it from a byte reader, with the
given content type: the content length is that of the body. -/
def newRequest (contentType : String) (body : Bytes) : Request where
  Header := fun key => if key = HeaderContentType then contentType else ""
  Body := body
  ContentLength := Int.ofNat body.length

/-- The value `Sample{Name: "test", Value: 42}` of the tests. -/
def testSample : GoValue := .sample { Name := "test", Value := 42 }

/-- The zero value of `Sample`, the target `var sample Sample` of the tests. -/
def zeroSample : GoValue := .sample { Name := "", Value := 0 }

/-- The bytes of `testSample` under the CBOR encoding. -/
def testSampleBytes : Bytes :=
  [0xA2, 0x64, 0x6E, 0x61, 0x6D, 0x65, 0x64, 0x74, 0x65, 0x73, 0x74,
   0x65, 0x76, 0x61, 0x6C, 0x75, 0x65, 0x18, 0x2A]

/-- The body of the request of `TestUnsupportedMediaType`: the JSON text with
`"name": "test"` and `"value": 42`. -/
def jsonBody : Bytes :=
  [0x7B, 0x22, 0x6E, 0x61, 0x6D, 0x65, 0x22, 0x3A, 0x20, 0x22, 0x74, 0x65, 0x73, 0x74, 0x22,
   0x2C, 0x20, 0x22, 0x76, 0x61, 0x6C, 0x75, 0x65, 0x22, 0x3A, 0x20, 0x34, 0x32, 0x7D]

/-- A struct with an unexported field: `struct{ Name string; secret int }` with
name `test` and secret 7. -/
def testAccount : GoValue := .account "test" 7

/-- The bytes of `testAccount` under the CBOR encoding: the map of its one
exported field. -/
def testAccountBytes : Bytes :=
  [0xA1, 0x64, 0x4E, 0x61, 0x6D, 0x65, 0x64, 0x74, 0x65, 0x73, 0x74]

/-! ## Binder.Bind -/

/-- C1: whenever the default binder's outcome `r` is not
`echo.ErrUnsupportedMediaType` (success, or any other error), `Bind` returns
exactly `r`; the only library call it makes is the default binder, so it reads
no header itself and never runs the CBOR decoder (whatever decoder is put in
its place, the outcome is the same); target and request are as the default
binder left them. -/
theorem Bind_returns_default_outcome {ε α κ : Type} [DecidableEq ε] (lib : Lib ε α κ)
    (i i1 : α) (c c1 : Request) (r : Error ε)
    (hd : lib.DefaultBinderBind i c = (r, i1, c1))
    (hr : r ≠ .ErrUnsupportedMediaType) :
    (Binder.Bind lib i c).err = r ∧
    (Binder.Bind lib i c).calls = [.DefaultBinderBind] ∧
    (∀ call ∈ (Binder.Bind lib i c).calls, call.isHeaderGet = false ∧ call.isDecode = false) ∧
    (∀ decode, Binder.Bind { lib with Decode := decode } i c = Binder.Bind lib i c) ∧
    (Binder.Bind lib i c).i = i1 ∧
    (Binder.Bind lib i c).req = c1 := by
  simp [Binder.Bind, hd, hr, Call.isHeaderGet, Call.isDecode]

/-- C1, run on a success and on an error of the default binder: the JSON text
of the tests binds with result `nil`, a JSON text cut short is the default
binder's bad request, both without any call but the default binder. -/
theorem Bind_returns_default_outcome_witness :
    (sampleLib.DefaultBinderBind zeroSample (newRequest "application/json" jsonBody)
        = (.nil, testSample, { newRequest "application/json" jsonBody with Body := [] }) ∧
      (Error.nil : Error String) ≠ .ErrUnsupportedMediaType ∧
      (Binder.Bind sampleLib zeroSample (newRequest "application/json" jsonBody)).err = .nil ∧
      (Binder.Bind sampleLib zeroSample (newRequest "application/json" jsonBody)).calls
        = [.DefaultBinderBind]) ∧
    (sampleLib.DefaultBinderBind zeroSample (newRequest "application/json" [0x7B])
        = (.HTTPError 400 "unexpected EOF" (.foreign "unexpected EOF"), zeroSample,
            { newRequest "application/json" [0x7B] with Body := [] }) ∧
      (Binder.Bind sampleLib zeroSample (newRequest "application/json" [0x7B])).err
        = .HTTPError 400 "unexpected EOF" (.foreign "unexpected EOF") ∧
      (Binder.Bind sampleLib zeroSample (newRequest "application/json" [0x7B])).calls
        = [.DefaultBinderBind]) :=
  have h1 := Bind_returns_default_outcome sampleLib zeroSample testSample
    (newRequest "application/json" jsonBody)
    { newRequest "application/json" jsonBody with Body := [] } .nil rfl (by decide)
  have h2 := Bind_returns_default_outcome sampleLib zeroSample zeroSample
    (newRequest "application/json" [0x7B])
    { newRequest "application/json" [0x7B] with Body := [] }
    (.HTTPError 400 "unexpected EOF" (.foreign "unexpected EOF")) rfl (by decide)
  ⟨⟨rfl, by decide, h1.1, h1.2.1⟩, ⟨rfl, h2.1, h2.2.1⟩⟩

/-- C2: when the default binder fails with `echo.ErrUnsupportedMediaType`, the
Content-Type header `Bind` reads is exactly `application/cbor`, and the CBOR
decoder rejects the body with error `e`, `Bind` fails with an `HTTPError` of
status 400 whose message is `e.Error()` and whose internal error is `e`; the
result is not the 415 error. -/
theorem Bind_decode_error_is_bad_request {ε α κ : Type} [DecidableEq ε] (lib : Lib ε α κ)
    (i i1 i2 : α) (c c1 : Request) (e : Error ε) (rest : Bytes)
    (hd : lib.DefaultBinderBind i c = (.ErrUnsupportedMediaType, i1, c1))
    (hct : c1.Header HeaderContentType = "application/cbor")
    (hdec : lib.Decode c1.Body i1 = (e, i2, rest))
    (he : e ≠ .nil) :
    (Binder.Bind lib i c).err = .HTTPError 400 (lib.ErrorString e) e ∧
    (Binder.Bind lib i c).err.Code = some 400 ∧
    (Binder.Bind lib i c).err ≠ .ErrUnsupportedMediaType ∧
    (Binder.Bind lib i c).err.Code ≠ some StatusUnsupportedMediaType := by
  simp [Binder.Bind, hd, hct, mimeType, hdec, he, NewHTTPError, Error.SetInternal,
    StatusBadRequest, Error.Code, StatusUnsupportedMediaType]

/-- C2, run on the single byte 0xFF of `TestInvalidCborData`: the decoder's
syntax error comes back as a 400 carrying it. -/
theorem Bind_decode_error_is_bad_request_witness :
    sampleLib.DefaultBinderBind zeroSample (newRequest "application/cbor" [0xFF])
      = (.ErrUnsupportedMediaType, zeroSample, newRequest "application/cbor" [0xFF]) ∧
    (newRequest "application/cbor" [0xFF]).Header HeaderContentType = "application/cbor" ∧
    sampleLib.Decode (newRequest "application/cbor" [0xFF]).Body zeroSample
      = (.foreign "cbor: unexpected \"break\" code", zeroSample, []) ∧
    (Binder.Bind sampleLib zeroSample (newRequest "application/cbor" [0xFF])).err
      = .HTTPError 400 "cbor: unexpected \"break\" code"
          (.foreign "cbor: unexpected \"break\" code") :=
  ⟨rfl, by decide, by decide,
    (Bind_decode_error_is_bad_request sampleLib zeroSample zeroSample zeroSample
      (newRequest "application/cbor" [0xFF]) (newRequest "application/cbor" [0xFF])
      (.foreign "cbor: unexpected \"break\" code") [] rfl (by decide) (by decide)
      (by decide)).1⟩

/-- C3: when the default binder fails with `echo.ErrUnsupportedMediaType` and
the Content-Type header `Bind` reads is any string other than
`application/cbor`, `Bind` returns `echo.ErrUnsupportedMediaType`, of code 415;
its calls are the default binder and the header read, so the CBOR decoder is
not run (whatever decoder is put in its place, the outcome is the same), and
target and request are as the default binder left them. -/
theorem Bind_other_content_type_unsupported {ε α κ : Type} [DecidableEq ε] (lib : Lib ε α κ)
    (i i1 : α) (c c1 : Request)
    (hd : lib.DefaultBinderBind i c = (.ErrUnsupportedMediaType, i1, c1))
    (hct : c1.Header HeaderContentType ≠ "application/cbor") :
    (Binder.Bind lib i c).err = .ErrUnsupportedMediaType ∧
    (Binder.Bind lib i c).err.Code = some 415 ∧
    (Binder.Bind lib i c).calls = [.DefaultBinderBind, .HeaderGet "Content-Type"] ∧
    (∀ call ∈ (Binder.Bind lib i c).calls, call.isDecode = false) ∧
    (∀ decode, Binder.Bind { lib with Decode := decode } i c = Binder.Bind lib i c) ∧
    (Binder.Bind lib i c).i = i1 ∧
    (Binder.Bind lib i c).req = c1 := by
  have hct1 : ¬ c1.Header "Content-Type" = "application/cbor" := hct
  simp [Binder.Bind, hd, hct1, mimeType, Error.Code, StatusUnsupportedMediaType,
    HeaderContentType, Call.isDecode]

/-- C3, run on the three content types the comparison tells from
`application/cbor`: another case, a parameter suffix, and none at all, each
with a body that is valid CBOR. -/
theorem Bind_other_content_type_unsupported_witness :
    ("Application/CBOR" ≠ "application/cbor" ∧
      (Binder.Bind sampleLib zeroSample (newRequest "Application/CBOR" testSampleBytes)).err
        = .ErrUnsupportedMediaType) ∧
    ("application/cbor; charset=utf-8" ≠ "application/cbor" ∧
      (Binder.Bind sampleLib zeroSample
        (newRequest "application/cbor; charset=utf-8" testSampleBytes)).err
        = .ErrUnsupportedMediaType) ∧
    ("" ≠ "application/cbor" ∧
      (Binder.Bind sampleLib zeroSample (newRequest "" testSampleBytes)).err
        = .ErrUnsupportedMediaType) :=
  ⟨⟨by decide, (Bind_other_content_type_unsupported sampleLib zeroSample zeroSample
      (newRequest "Application/CBOR" testSampleBytes)
      (newRequest "Application/CBOR" testSampleBytes) rfl (by decide)).1⟩,
   ⟨by decide, (Bind_other_content_type_unsupported sampleLib zeroSample zeroSample
      (newRequest "application/cbor; charset=utf-8" testSampleBytes)
      (newRequest "application/cbor; charset=utf-8" testSampleBytes) rfl (by decide)).1⟩,
   ⟨by decide, (Bind_other_content_type_unsupported sampleLib zeroSample zeroSample
      (newRequest "" testSampleBytes) (newRequest "" testSampleBytes) rfl (by decide)).1⟩⟩

/-- C4 as stated fails: a struct with an unexported field is encodable, the
codec leaves that field out, and a request with that encoding as its body
binds with result `nil` a target whose unexported field is still zero, which
is not the value encoded. -/
theorem Bind_unexported_field_not_bound :
    sampleLib.Marshal testAccount = (testAccountBytes, .nil) ∧
    (sampleLib.DefaultBinderBind (.account "" 0)
      (newRequest "application/cbor" testAccountBytes)).1 = .ErrUnsupportedMediaType ∧
    (newRequest "application/cbor" testAccountBytes).Header HeaderContentType
      = "application/cbor" ∧
    (Binder.Bind sampleLib (.account "" 0)
      (newRequest "application/cbor" testAccountBytes)).err = .nil ∧
    (Binder.Bind sampleLib (.account "" 0)
      (newRequest "application/cbor" testAccountBytes)).i = .account "test" 0 ∧
    (Binder.Bind sampleLib (.account "" 0)
      (newRequest "application/cbor" testAccountBytes)).i ≠ testAccount := by
  decide

/-- C4, amended: for a value `v` that the codec encodes to `b` and decodes back
from `b` to `v`, a request for which the default binder fails with
`echo.ErrUnsupportedMediaType`, whose Content-Type is `application/cbor` and
whose body is `b`, makes `Bind` return `nil` with the target equal to `v` and
the body read as far as the decoder read it; that content type and that body
are what a recording writer receives from `context.Cbor` for `v`. -/
theorem Bind_binds_round_trip_value {ε α κ : Type} [DecidableEq ε] (lib : Lib ε α κ)
    (v i i1 : α) (c c1 : Request) (b rest : Bytes) (rec : Recorder) (code : Int)
    (hm : lib.Marshal v = (b, .nil))
    (hrt : lib.Decode b i1 = (.nil, v, rest))
    (hd : lib.DefaultBinderBind i c = (.ErrUnsupportedMediaType, i1, c1))
    (hct : c1.Header HeaderContentType = "application/cbor")
    (hb : c1.Body = b) :
    (Binder.Bind lib i c).err = .nil ∧
    (Binder.Bind lib i c).i = v ∧
    (Binder.Bind lib i c).req = { c1 with Body := rest } ∧
    (context.Cbor lib.recording ⟨rec⟩ code v).ctx.Context
      = rec ++ [(code, c1.Header HeaderContentType, c1.Body)] := by
  have hct1 : c1.Header "Content-Type" = "application/cbor" := hct
  simp [Binder.Bind, hd, hct1, hb, mimeType, hrt, context.Cbor, hm, Lib.recording,
    recordingBlob, context.promoted, HeaderContentType]

/-- C4 amended, run on the request of `TestCborBinding`: the body is the
encoding of the sample with name `test` and value 42, and the zero target
comes back with name `test` and value 42. -/
theorem Bind_binds_round_trip_value_witness :
    sampleLib.Marshal testSample = (testSampleBytes, .nil) ∧
    sampleLib.Decode testSampleBytes zeroSample = (.nil, testSample, []) ∧
    (Binder.Bind sampleLib zeroSample (newRequest "application/cbor" testSampleBytes)).err
      = .nil ∧
    (Binder.Bind sampleLib zeroSample (newRequest "application/cbor" testSampleBytes)).i
      = .sample { Name := "test", Value := 42 } :=
  have h := Bind_binds_round_trip_value sampleLib testSample zeroSample zeroSample
    (newRequest "application/cbor" testSampleBytes)
    (newRequest "application/cbor" testSampleBytes) testSampleBytes [] [] 200
    (by decide) (by decide) rfl (by decide) rfl
  ⟨by decide, by decide, h.1, h.2.1⟩

/-- C8, on the request of `TestUnsupportedMediaType`: its content type is
`application/json`, the default binder decodes its body, and `Bind` returns
`nil` with the target bound, not the 415 error; the CBOR decoder is not run. -/
theorem Bind_json_request_accepted :
    (newRequest "application/json" jsonBody).Header HeaderContentType = "application/json" ∧
    (Binder.Bind sampleLib zeroSample (newRequest "application/json" jsonBody)).err = .nil ∧
    (Binder.Bind sampleLib zeroSample (newRequest "application/json" jsonBody)).err
      ≠ .ErrUnsupportedMediaType ∧
    (Binder.Bind sampleLib zeroSample (newRequest "application/json" jsonBody)).i
      = .sample { Name := "test", Value := 42 } ∧
    (Binder.Bind sampleLib zeroSample (newRequest "application/json" jsonBody)).calls
      = [.DefaultBinderBind] := by
  decide

/-- C5: when the codec serializes `v` to `b`, `context.Cbor` with status `code`
makes exactly one response write, `Blob` with status `code`, content type
`application/cbor` and body `b`, and returns the error of that write, leaving
the context as the write left it. -/
theorem Cbor_writes_one_response {ε α κ : Type} [DecidableEq ε] (lib : Lib ε α κ)
    (c : context κ) (code : Int) (v : α) (b : Bytes)
    (hm : lib.Marshal v = (b, .nil)) :
    (c.Cbor lib code v).calls.filter Call.isBlob = [.Blob code "application/cbor" b] ∧
    (c.Cbor lib code v).calls = [.Marshal, .Blob code "application/cbor" b] ∧
    (c.Cbor lib code v).err = (lib.Blob c.Context code "application/cbor" b).1 ∧
    (c.Cbor lib code v).ctx.Context = (lib.Blob c.Context code "application/cbor" b).2 := by
  simp [context.Cbor, hm, context.promoted, mimeType, Call.isBlob]

/-- C5, run on the handler of `TestCborResponse` and on a status other than
200: the recorder holds one response, with that status, `application/cbor` and
the encoded sample. -/
theorem Cbor_writes_one_response_witness :
    sampleLib.Marshal testSample = (testSampleBytes, .nil) ∧
    (context.Cbor sampleLib ⟨[]⟩ 200 testSample).calls.filter Call.isBlob
      = [.Blob 200 "application/cbor" testSampleBytes] ∧
    (context.Cbor sampleLib ⟨[]⟩ 200 testSample).ctx.Context
      = [(200, "application/cbor", testSampleBytes)] ∧
    (context.Cbor sampleLib ⟨[]⟩ 500 testSample).ctx.Context
      = [(500, "application/cbor", testSampleBytes)] :=
  ⟨by decide,
    (Cbor_writes_one_response sampleLib ⟨[]⟩ 200 testSample testSampleBytes (by decide)).1,
    (Cbor_writes_one_response sampleLib ⟨[]⟩ 200 testSample testSampleBytes (by decide)).2.2.2,
    (Cbor_writes_one_response sampleLib ⟨[]⟩ 500 testSample testSampleBytes (by decide)).2.2.2⟩

/-- C6: when the codec's serialization of `v` fails with error `e`,
`context.Cbor` returns `e` itself and writes nothing: it makes no `Blob` call
(whatever response writer is put in its place, the outcome is the same) and
leaves the context as it was. -/
theorem Cbor_marshal_error_returned {ε α κ : Type} [DecidableEq ε] (lib : Lib ε α κ)
    (c : context κ) (code : Int) (v : α) (b : Bytes) (e : Error ε)
    (hm : lib.Marshal v = (b, e))
    (he : e ≠ .nil) :
    (c.Cbor lib code v).err = e ∧
    (c.Cbor lib code v).calls.filter Call.isBlob = [] ∧
    (c.Cbor lib code v).calls = [.Marshal] ∧
    (∀ blob, c.Cbor { lib with Blob := blob } code v = c.Cbor lib code v) ∧
    (c.Cbor lib code v).ctx = c := by
  simp [context.Cbor, hm, he, Call.isBlob]

/-- C6, run on a value the codec refuses, a channel: its error comes back and
the recorder stays empty. -/
theorem Cbor_marshal_error_returned_witness :
    sampleLib.Marshal .chanInt = ([], .foreign "cbor: unsupported type: chan int") ∧
    (context.Cbor sampleLib ⟨[]⟩ 200 .chanInt).err
      = .foreign "cbor: unsupported type: chan int" ∧
    (context.Cbor sampleLib ⟨[]⟩ 200 .chanInt).ctx.Context = [] :=
  have h := Cbor_marshal_error_returned sampleLib ⟨[]⟩ 200 .chanInt []
    (.foreign "cbor: unsupported type: chan int") (by decide) (by decide)
  ⟨by decide, h.1, by rw [h.2.2.2.2]⟩

/-- C7 as stated fails: a struct with an unexported field is encodable, and the
body `context.Cbor` writes for it decodes to a struct whose unexported field is
zero, which is not the value written. -/
theorem Cbor_unexported_field_not_written :
    sampleLib.Marshal testAccount = (testAccountBytes, .nil) ∧
    (context.Cbor sampleLib ⟨[]⟩ 200 testAccount).err = .nil ∧
    (context.Cbor sampleLib ⟨[]⟩ 200 testAccount).ctx.Context
      = [(200, "application/cbor", testAccountBytes)] ∧
    sampleLib.Decode testAccountBytes (.account "" 0) = (.nil, .account "test" 0, []) ∧
    GoValue.account "test" 0 ≠ testAccount := by
  decide

/-- C7, amended: for a value `v` that the codec encodes to `b` and decodes back
from `b` to `v` (into a target `t`), and every status `code`, `context.Cbor`
hands the response writer exactly `code`, `application/cbor` and `b`, once: a
recording writer holds that one response more, and decoding the body recorded
yields `v`. -/
theorem Cbor_body_round_trip {ε α κ : Type} [DecidableEq ε] (lib : Lib ε α κ)
    (c : context κ) (rec : Recorder) (code : Int) (v t : α) (b rest : Bytes)
    (hm : lib.Marshal v = (b, .nil))
    (hrt : lib.Decode b t = (.nil, v, rest)) :
    (c.Cbor lib code v).err = (lib.Blob c.Context code "application/cbor" b).1 ∧
    (c.Cbor lib code v).ctx.Context = (lib.Blob c.Context code "application/cbor" b).2 ∧
    (context.Cbor lib.recording ⟨rec⟩ code v).ctx.Context
      = rec ++ [(code, "application/cbor", b)] ∧
    (∀ w ∈ (context.Cbor lib.recording ⟨[]⟩ code v).ctx.Context,
      w.1 = code ∧ w.2.1 = "application/cbor" ∧ lib.Decode w.2.2 t = (.nil, v, rest)) := by
  simp [context.Cbor, hm, context.promoted, mimeType, Lib.recording, recordingBlob, hrt]

/-- C7 amended, run on `TestCborResponse`: status 200, content type
`application/cbor`, and a body that decodes to name `test` and value 42. -/
theorem Cbor_body_round_trip_witness :
    sampleLib.Marshal testSample = (testSampleBytes, .nil) ∧
    sampleLib.Decode testSampleBytes zeroSample = (.nil, testSample, []) ∧
    (context.Cbor sampleLib ⟨[]⟩ 200 testSample).ctx.Context
      = [(200, "application/cbor", testSampleBytes)] ∧
    (∀ w ∈ (context.Cbor sampleLib.recording ⟨[]⟩ 200 testSample).ctx.Context,
      w.1 = 200 ∧ w.2.1 = "application/cbor" ∧
      sampleLib.Decode w.2.2 zeroSample = (.nil, .sample { Name := "test", Value := 42 }, [])) :=
  have h := Cbor_body_round_trip sampleLib ⟨[]⟩ [] 200 testSample zeroSample testSampleBytes []
    (by decide) (by decide)
  ⟨by decide, by decide, h.2.1, h.2.2.2⟩

/-! ## ContextWrapper -/

/-- C10: for every handler `next` and context `c`, the handler
`ContextWrapper next` calls `next` exactly once, with a new `context` whose
embedded context is `c`, so that every method promoted from the embedded
context gives on it what it gives on `c`; it returns the error of `next`, and
the underlying context is as `next` left it. -/
theorem ContextWrapper_calls_next_once {ε κ : Type} (next : HandlerFunc ε (context κ)) (c : κ) :
    (ContextWrapper next c).nextCalls = [{ Context := c }] ∧
    (∀ ctx ∈ (ContextWrapper next c).nextCalls,
      ctx.Context = c ∧ ∀ (β : Type) (method : κ → β), ctx.promoted method = method c) ∧
    (ContextWrapper next c).err = (next { Context := c }).1 ∧
    (ContextWrapper next c).c = (next { Context := c }).2.Context := by
  simp [ContextWrapper, context.promoted]

end echocbor
